import Mathlib

/-!
Verification of the task-store, persistence and markdown-export logic of
`src/main.py` (a command-line to-do list).  The Python class `TodoList` keeps a
list of task dicts; we embed a task as a structure, the mutating methods as
pure functions from the task list to a new task list together with the list of
user-visible reports they print, and `list.sort(key=...)` as the stable sort by
the same key (insertion sort, whose sortedness and stability are proved below
and uniquely characterise Python's stable sort).
-/

namespace TodoList

/-- Task record, mirroring the dict built in `add_task`:
`{"id": ..., "name": ..., "priority": ..., "done": ..., "created_at": ...}`. -/
structure Task where
  id : Nat
  name : String
  priority : String
  done : Bool
  created_at : String
deriving DecidableEq

/-- Reports printed by the methods of `TodoList` (one constructor per distinct
`print` message relevant to the core operations). -/
inductive Msg where
  | added (name : String)
  | deleted (name : String)
  | updated (id : Nat)
  | markedDone (id : Nat) (completed : Bool)
  | notFound (id : Nat)
  | invalidPriority
  | nothingToExport
  | exported
deriving DecidableEq

/-- Membership test `priority in PRIORITY_COLORS`; the keys of the
`PRIORITY_COLORS` dict are high, medium and low. -/
def validPriority (p : String) : Bool :=
  p = "high" || p = "medium" || p = "low"

/-- Lookup `priority_order.get(p, 999)` with
`priority_order = {"high": 0, "medium": 1, "low": 2}` in `sort_tasks`. -/
def priorityOrder (p : String) : Nat :=
  if p = "high" then 0 else if p = "medium" then 1 else if p = "low" then 2 else 999

/-- Sort key `lambda x: (x["done"], priority_order.get(x["priority"], 999))`;
Python orders the booleans as `False < True`, embedded here as 0 and 1. -/
def sortKey (t : Task) : Nat × Nat :=
  (if t.done then 1 else 0, priorityOrder t.priority)

/-- Lexicographic comparison of sort keys, exactly how Python compares the key
tuples during `list.sort`. -/
def keyLE (a b : Task) : Prop :=
  (sortKey a).1 < (sortKey b).1 ∨
    ((sortKey a).1 = (sortKey b).1 ∧ (sortKey a).2 ≤ (sortKey b).2)

instance : DecidableRel keyLE := fun _ _ =>
  inferInstanceAs (Decidable (_ ∨ _))

instance : IsTotal Task keyLE :=
  ⟨by intro a b; unfold keyLE; omega⟩

instance : IsTrans Task keyLE :=
  ⟨by intro a b c; unfold keyLE; omega⟩

/-- Method `sort_tasks`: `self.tasks.sort(key=...)`.  Python's `list.sort` is
the stable sort by the key; it is embedded as insertion sort with respect to
`keyLE`, and `sortTasks_sorted` and `sortTasks_filter_key` below prove the
sortedness and stability that uniquely characterise it. -/
def sortTasks (ts : List Task) : List Task :=
  List.insertionSort keyLE ts

/-- Method `add_task`.  The creation timestamp `datetime.now()` is passed in as
`now`; the Python signature defaults `priority` to the string medium. -/
def addTask (ts : List Task) (name priority now : String) : List Task × List Msg :=
  if !validPriority priority then (ts, [.invalidPriority])
  else
    let task : Task :=
      { id := ts.length + 1, name := name, priority := priority,
        done := false, created_at := now }
    (sortTasks (ts ++ [task]), [.added name])

/-- Method `delete_task`.  The source prints the not-found message inside the
loop, once for every non-matching element scanned before a match (or the end of
the list) is reached; on a match the element is removed and scanning stops. -/
def deleteTask (taskId : Nat) : List Task → List Task × List Msg
  | [] => ([], [])
  | t :: ts =>
    if t.id = taskId then (ts, [.deleted t.name])
    else
      let r := deleteTask taskId ts
      (t :: r.1, .notFound taskId :: r.2)

/-- Truthiness of an optional string argument in Python: `None` and the empty
string are falsy, every other string is truthy. -/
def pyTruthy : Option String → Bool
  | none => false
  | some s => !(decide (s = ""))

/-- Outcome of the scan inside `update_task`. -/
inductive UpdOutcome where
  | notFound
  | invalidPriority
  | updated
deriving DecidableEq

/-- Loop of `update_task`: find the first task with the given id; a truthy
`name` argument is applied immediately, and only then is the `priority`
argument validated (an invalid priority aborts after the name was already
written). -/
def updateTaskAux (taskId : Nat) (name priority : Option String) :
    List Task → List Task × UpdOutcome
  | [] => ([], .notFound)
  | t :: ts =>
    if t.id = taskId then
      let t1 := if pyTruthy name then { t with name := name.getD t.name } else t
      if pyTruthy priority then
        if validPriority (priority.getD "") then
          ({ t1 with priority := priority.getD "" } :: ts, .updated)
        else (t1 :: ts, .invalidPriority)
      else (t1 :: ts, .updated)
    else
      let r := updateTaskAux taskId name priority ts
      (t :: r.1, r.2)

/-- Method `update_task`: on success the whole list is re-sorted; on an invalid
priority the method returns before sorting (with any truthy name change already
applied); if no task matches, the final not-found message is printed. -/
def updateTask (taskId : Nat) (name priority : Option String) (ts : List Task) :
    List Task × List Msg :=
  let r := updateTaskAux taskId name priority ts
  match r.2 with
  | .updated => (sortTasks r.1, [.updated taskId])
  | .invalidPriority => (r.1, [.invalidPriority])
  | .notFound => (ts, [.notFound taskId])

/-- Loop of `mark_done`: flip `done` on the first task with the given id,
returning the new completion status when found. -/
def markDoneAux (taskId : Nat) : List Task → List Task × Option Bool
  | [] => ([], none)
  | t :: ts =>
    if t.id = taskId then ({ t with done := !t.done } :: ts, some (!t.done))
    else
      let r := markDoneAux taskId ts
      (t :: r.1, r.2)

/-- Method `mark_done`: flips `done` of the first matching task and re-sorts;
otherwise reports not-found once, after the full scan. -/
def markDone (taskId : Nat) (ts : List Task) : List Task × List Msg :=
  let r := markDoneAux taskId ts
  match r.2 with
  | some st => (sortTasks r.1, [.markedDone taskId st])
  | none => (ts, [.notFound taskId])

/-- Modelled from the spec: the JSON values exchanged with the Python `json`
library in `save_tasks` and `load_tasks`.  The library is not part of this
repository, so serialization is modelled at the JSON-value level (spec section
4.2 and section 6: records with fields id, name, priority, done, created_at). -/
inductive Json where
  | num (n : Nat)
  | str (s : String)
  | bool (b : Bool)
  | arr (elems : List Json)
  | obj (fields : List (String × Json))

/-- Modelled from the spec: the JSON object `json.dump` writes for one task
dict, one field per key in the order `add_task` builds the dict. -/
def taskToJson (t : Task) : Json :=
  .obj [("id", .num t.id), ("name", .str t.name), ("priority", .str t.priority),
        ("done", .bool t.done), ("created_at", .str t.created_at)]

/-- Modelled from the spec: reading one task record back from its JSON object. -/
def jsonToTask : Json → Option Task
  | .obj [("id", .num i), ("name", .str n), ("priority", .str p),
          ("done", .bool d), ("created_at", .str c)] =>
    some { id := i, name := n, priority := p, done := d, created_at := c }
  | _ => none

/-- Method `save_tasks` at the JSON-value level: `json.dump(self.tasks, f)`
serializes the task list as a JSON array of task objects. -/
def saveTasks (ts : List Task) : Json :=
  .arr (ts.map taskToJson)

/-- Decode a list of task objects, failing if any element fails to decode. -/
def jsonListToTasks : List Json → Option (List Task)
  | [] => some []
  | j :: js =>
    match jsonToTask j, jsonListToTasks js with
    | some t, some ts => some (t :: ts)
    | _, _ => none

/-- Method `load_tasks` at the JSON-value level: `self.tasks = json.load(f)`
reads the array back. -/
def loadTasks : Json → Option (List Task)
  | .arr js => jsonListToTasks js
  | _ => none

/-- Pending-task line of `export_to_markdown`:
`checkbox` is the string dash-space-bracket-space-bracket-space, and the
priority tag is included only for recognized priorities. -/
def pendingLine (t : Task) : String :=
  "- [ ] " ++ (if validPriority t.priority then "[!" ++ t.priority ++ "] " else "")
    ++ t.name

/-- Completed-task line of `export_to_markdown`.  In the source,
`checkbox = [\x27- [x] \x27]` is a Python *list* containing the checkbox
string, so the f-string interpolates the list repr (brackets and quotes
included) instead of the checkbox string itself. -/
def completedLine (t : Task) : String :=
  "[\x27- [x] \x27]" ++ (if validPriority t.priority then "[!" ++ t.priority ++ "] " else "")
    ++ t.name

/-- Method `export_to_markdown`, with the document content as a list of lines
(file naming and writing are I/O outside the embedding; the export timestamp is
the `now` argument).  An empty task list produces no document and only the
"No tasks to export." report. -/
def exportToMarkdown (ts : List Task) (now : String) : Option (List String) × List Msg :=
  if ts.isEmpty then (none, [.nothingToExport])
  else
    (some (["# Todo List", "", "Exported on : " ++ now, "", "## Pending Tasks", ""]
      ++ (ts.filter (fun t => !t.done)).map pendingLine
      ++ ["", "## Completed Tasks", ""]
      ++ (ts.filter (fun t => t.done)).map completedLine), [.exported])

/-- Scenario exercising id assignment across a deletion (claim C7): add two
tasks, delete the first, then add a third. -/
def idReuseScenario : List Task :=
  (addTask
    (deleteTask 1 (addTask (addTask [] "A" "medium" "t1").1 "B" "medium" "t2").1).1
    "C" "medium" "t3").1

/-! Helper lemmas about `sortTasks`. -/

/-- Sorting permutes the task list. -/
theorem sortTasks_perm (ts : List Task) : List.Perm (sortTasks ts) ts :=
  List.perm_insertionSort keyLE ts

/-- The sorted list is pairwise ordered by the key comparison. -/
theorem sortTasks_sorted (ts : List Task) : (sortTasks ts).Pairwise keyLE :=
  List.sorted_insertionSort keyLE ts

/-- Stability of `sortTasks`: for every key value, the subsequence of tasks
with that exact sort key is unchanged by sorting. -/
theorem sortTasks_filter_key (ts : List Task) (k : Nat × Nat) :
    (sortTasks ts).filter (fun t => sortKey t == k)
      = ts.filter (fun t => sortKey t == k) := by
  set p : Task → Bool := fun t => sortKey t == k with hp
  have hpw : (ts.filter p).Pairwise keyLE := by
    apply List.pairwise_of_forall_mem_list
    intro a ha b hb
    have ha' : sortKey a = k := by simpa [hp] using (List.mem_filter.mp ha).2
    have hb' : sortKey b = k := by simpa [hp] using (List.mem_filter.mp hb).2
    unfold keyLE
    rw [ha', hb']
    omega
  have hsub : List.Sublist (ts.filter p) (sortTasks ts) :=
    List.sublist_insertionSort hpw (List.filter_sublist ts)
  have hself : (ts.filter p).filter p = ts.filter p :=
    List.filter_eq_self.mpr fun a ha => (List.mem_filter.mp ha).2
  have hsub2 : List.Sublist (ts.filter p) ((sortTasks ts).filter p) :=
    hself ▸ hsub.filter p
  have hperm : List.Perm ((sortTasks ts).filter p) (ts.filter p) :=
    (sortTasks_perm ts).filter p
  exact (hsub2.eq_of_length hperm.length_eq.symm).symm

/-- In key order, a completed task never comes weakly before a pending one. -/
theorem keyLE_done {a b : Task} (h : keyLE a b) (hd : a.done = true) :
    b.done = true := by
  unfold keyLE sortKey at h
  rw [hd] at h
  by_cases hb : b.done = true
  · exact hb
  · rw [Bool.not_eq_true] at hb
    rw [hb] at h
    simp at h

/-- Among tasks with equal completion status, key order means priority order. -/
theorem keyLE_priority {a b : Task} (h : keyLE a b) (hd : a.done = b.done) :
    priorityOrder a.priority ≤ priorityOrder b.priority := by
  unfold keyLE sortKey at h
  rw [hd] at h
  omega

/-- C3: after `sort_tasks`, no completed task precedes a pending one (so every
pending task precedes every completed one); among tasks with equal `done`, the
earlier task has priority rank at most the later one (high = 0 before
medium = 1 before low = 2); and for every sort-key value the subsequence of
equal-key tasks is exactly what it was before sorting (stability). -/
theorem sort_tasks_correct (ts : List Task) :
    ((sortTasks ts).Pairwise fun a b => a.done = true → b.done = true)
    ∧ ((sortTasks ts).Pairwise fun a b =>
        a.done = b.done → priorityOrder a.priority ≤ priorityOrder b.priority)
    ∧ ∀ k : Nat × Nat,
        (sortTasks ts).filter (fun t => sortKey t == k)
          = ts.filter (fun t => sortKey t == k) := by
  refine ⟨?_, ?_, sortTasks_filter_key ts⟩
  · exact (sortTasks_sorted ts).imp fun h hd => keyLE_done h hd
  · exact (sortTasks_sorted ts).imp fun h hd => keyLE_priority h hd

/-- Decoding inverts encoding for a single task record. -/
theorem jsonToTask_taskToJson (t : Task) : jsonToTask (taskToJson t) = some t := by
  cases t
  rfl

/-- Decoding inverts encoding for a list of task records. -/
theorem jsonListToTasks_map (ts : List Task) :
    jsonListToTasks (ts.map taskToJson) = some ts := by
  induction ts with
  | nil => rfl
  | cons t ts ih => simp [jsonListToTasks, jsonToTask_taskToJson, ih]

/-- C4: `save` followed by `load` reproduces the task collection exactly, every
field and the order included. -/
theorem save_load_roundtrip (ts : List Task) :
    loadTasks (saveTasks ts) = some ts := by
  simp [loadTasks, saveTasks, jsonListToTasks_map]

/-- C8: exporting an empty collection produces no document and only the
"nothing to export" report. -/
theorem export_empty_noop (now : String) :
    exportToMarkdown [] now = (none, [Msg.nothingToExport]) := rfl

/-- C9: `add_task` with the default medium priority creates a task with
`done = false` and id one greater than the current collection size, appends it
and re-sorts; the created task is in the resulting collection. -/
theorem add_default_medium (ts : List Task) (nm now : String) :
    addTask ts nm "medium" now
      = (sortTasks (ts ++ [{ id := ts.length + 1, name := nm, priority := "medium",
                             done := false, created_at := now }]), [Msg.added nm])
    ∧ ({ id := ts.length + 1, name := nm, priority := "medium", done := false,
         created_at := now } : Task) ∈ (addTask ts nm "medium" now).1 := by
  have hv : validPriority "medium" = true := by decide
  constructor
  · simp [addTask, hv]
  · simp [addTask, hv, sortTasks, List.mem_insertionSort]

/-- C2: the not-found report of `delete_task` is printed inside the scanning
loop, so deleting a missing id from a two-task store emits the report twice
(once per scanned element), and deleting from an empty store emits it zero
times — not exactly once after the full scan. -/
theorem delete_missing_id_message_count :
    deleteTask 3 [(⟨1, "A", "high", false, "t"⟩ : Task), ⟨2, "B", "low", false, "t"⟩]
      = ([⟨1, "A", "high", false, "t"⟩, ⟨2, "B", "low", false, "t"⟩],
         [Msg.notFound 3, Msg.notFound 3])
    ∧ deleteTask 3 ([] : List Task) = ([], []) := by
  constructor
  · rfl
  · rfl

/-- C5: the completed-task checkbox is written as the repr of the Python list
`checkbox = [\x27- [x] \x27]`, so a completed high-priority task named A is
rendered with leading bracket-quote noise instead of the checklist form
dash-x-bracket. -/
theorem export_completed_checkbox_bug :
    exportToMarkdown [(⟨1, "A", "high", true, "c"⟩ : Task)] "now"
      = (some ["# Todo List", "", "Exported on : now", "", "## Pending Tasks", "",
               "", "## Completed Tasks", "", "[\x27- [x] \x27][!high] A"],
         [Msg.exported])
    ∧ completedLine ⟨1, "A", "high", true, "c"⟩ ≠ "- [x] [!high] A" := by
  constructor
  · rfl
  · decide

/-- C7: after adding tasks A and B (ids 1 and 2), deleting id 1 and adding C,
the new task receives id `len + 1 = 2`, which duplicates the id of the
surviving task B: the store ends with ids [2, 2]. -/
theorem add_after_delete_duplicates_id :
    idReuseScenario.map Task.id = [2, 2]
    ∧ ¬ (idReuseScenario.map Task.id).Nodup := by
  constructor
  · rfl
  · decide

/-- Scan of `update_task` when a truthy name and a truthy invalid priority are
supplied and a task with the id is present: the name is overwritten first, then
the invalid priority aborts the call. -/
theorem updateTaskAux_invalid (l1 : List Task) {t : Task} {l2 : List Task}
    {taskId : Nat} {nm p : String}
    (h1 : ∀ u ∈ l1, u.id ≠ taskId) (ht : t.id = taskId)
    (hnm : nm ≠ "") (hp : validPriority p = false) (hp0 : p ≠ "") :
    updateTaskAux taskId (some nm) (some p) (l1 ++ t :: l2)
      = (l1 ++ { t with name := nm } :: l2, .invalidPriority) := by
  induction l1 with
  | nil =>
    simp [updateTaskAux, ht, pyTruthy, hnm, hp0, hp, Option.getD]
  | cons a l1 ih =>
    have ha : a.id ≠ taskId := h1 a (List.mem_cons_self a l1)
    simp [updateTaskAux, ha, ih fun u hu => h1 u (List.mem_cons_of_mem a hu)]

/-- C1 (amended): `update` on an existing task with a truthy new name and a
truthy invalid priority reports InvalidPriority and leaves id, priority, done
and created_at unchanged and the collection unsorted, but the name change has
already been applied — the update is not all-or-nothing. -/
theorem update_invalid_priority_applies_name (taskId : Nat) (nm p : String)
    (l1 l2 : List Task) (t : Task)
    (h1 : ∀ u ∈ l1, u.id ≠ taskId) (ht : t.id = taskId)
    (hnm : nm ≠ "") (hp : validPriority p = false) (hp0 : p ≠ "") :
    updateTask taskId (some nm) (some p) (l1 ++ t :: l2)
      = (l1 ++ { t with name := nm } :: l2, [Msg.invalidPriority]) := by
  simp [updateTask, updateTaskAux_invalid l1 h1 ht hnm hp hp0]

/-- Witness instantiating `update_invalid_priority_applies_name` on a concrete
one-task store. -/
theorem update_invalid_priority_applies_name_witness :
    updateTask 1 (some "X") (some "bogus") ([] ++ (⟨1, "A", "high", false, "c"⟩ : Task) :: [])
      = ([] ++ ({ (⟨1, "A", "high", false, "c"⟩ : Task) with name := "X" }) :: [],
         [Msg.invalidPriority]) :=
  update_invalid_priority_applies_name 1 "X" "bogus" [] [] ⟨1, "A", "high", false, "c"⟩
    (by intro u hu; cases hu) rfl (by decide) (by decide) (by decide)

/-- C1 (counterexample): updating task 1 with name X and the invalid priority
bogus changes the stored name to X, so the task is not left entirely
unchanged as the claim states. -/
theorem update_invalid_priority_not_atomic_cex :
    updateTask 1 (some "X") (some "bogus") [(⟨1, "A", "high", false, "c"⟩ : Task)]
      = ([⟨1, "X", "high", false, "c"⟩], [Msg.invalidPriority])
    ∧ (updateTask 1 (some "X") (some "bogus") [(⟨1, "A", "high", false, "c"⟩ : Task)]).1
        ≠ [(⟨1, "A", "high", false, "c"⟩ : Task)] := by
  constructor
  · rfl
  · decide

/-- Scan of `update_task` when the supplied name is the empty string (falsy in
Python) and the priority is valid: the name is left alone and the priority is
set. -/
theorem updateTaskAux_empty_name (l1 : List Task) {t : Task} {l2 : List Task}
    {taskId : Nat} {p : String}
    (h1 : ∀ u ∈ l1, u.id ≠ taskId) (ht : t.id = taskId)
    (hp : validPriority p = true) :
    updateTaskAux taskId (some "") (some p) (l1 ++ t :: l2)
      = (l1 ++ { t with priority := p } :: l2, .updated) := by
  have hp0 : p ≠ "" := fun h => absurd (h ▸ hp) (by decide)
  induction l1 with
  | nil =>
    simp [updateTaskAux, ht, pyTruthy, hp0, hp, Option.getD]
  | cons a l1 ih =>
    have ha : a.id ≠ taskId := h1 a (List.mem_cons_self a l1)
    simp [updateTaskAux, ha, ih fun u hu => h1 u (List.mem_cons_of_mem a hu)]

/-- C10: `update` with the empty string as the name and a valid priority treats
the empty name like an absent one: the task keeps its name, id, done and
created_at, only the priority changes, every other task is untouched, and the
collection is re-sorted. -/
theorem update_empty_name_keeps_name (taskId : Nat) (p : String)
    (l1 l2 : List Task) (t : Task)
    (h1 : ∀ u ∈ l1, u.id ≠ taskId) (ht : t.id = taskId)
    (hp : validPriority p = true) :
    updateTask taskId (some "") (some p) (l1 ++ t :: l2)
      = (sortTasks (l1 ++ { t with priority := p } :: l2), [Msg.updated taskId]) := by
  simp [updateTask, updateTaskAux_empty_name l1 h1 ht hp]

/-- Witness instantiating `update_empty_name_keeps_name` on a concrete
one-task store. -/
theorem update_empty_name_keeps_name_witness :
    updateTask 1 (some "") (some "low") ([] ++ (⟨1, "A", "high", false, "c"⟩ : Task) :: [])
      = (sortTasks ([] ++ ({ (⟨1, "A", "high", false, "c"⟩ : Task) with priority := "low" }) :: []),
         [Msg.updated 1]) :=
  update_empty_name_keeps_name 1 "low" [] [] ⟨1, "A", "high", false, "c"⟩
    (by intro u hu; cases hu) rfl (by decide)

/-- Every list containing a task with the given id splits at the first such
task. -/
theorem exists_first_id {taskId : Nat} :
    ∀ {ts : List Task}, (∃ t ∈ ts, t.id = taskId) →
      ∃ l1 t l2, ts = l1 ++ t :: l2 ∧ (∀ u ∈ l1, u.id ≠ taskId) ∧ t.id = taskId := by
  intro ts h
  induction ts with
  | nil => simp at h
  | cons a ts ih =>
    by_cases ha : a.id = taskId
    · exact ⟨[], a, ts, rfl, by simp, ha⟩
    · obtain ⟨t, ht, hid⟩ := h
      rcases List.mem_cons.mp ht with h' | h'
      · exact absurd (h' ▸ hid) ha
      · obtain ⟨l1, t', l2, heq, hl1, ht'⟩ := ih ⟨t, h', hid⟩
        exact ⟨a :: l1, t', l2, by rw [heq]; rfl,
          by intro u hu; rcases List.mem_cons.mp hu with h'' | h''
             exacts [h'' ▸ ha, hl1 u h''], ht'⟩

/-- Scan of `mark_done` when no task matches: the list is untouched. -/
theorem markDoneAux_not_found {taskId : Nat} :
    ∀ {ts : List Task}, (∀ t ∈ ts, t.id ≠ taskId) →
      markDoneAux taskId ts = (ts, none) := by
  intro ts h
  induction ts with
  | nil => rfl
  | cons a ts ih =>
    have ha : a.id ≠ taskId := h a (List.mem_cons_self a ts)
    simp [markDoneAux, ha, ih fun u hu => h u (List.mem_cons_of_mem a hu)]

/-- Scan of `mark_done` when a task matches: `done` of the first match is
flipped, everything else is untouched. -/
theorem markDoneAux_append {taskId : Nat} (l1 : List Task) (t : Task)
    (l2 : List Task) (h1 : ∀ u ∈ l1, u.id ≠ taskId) (ht : t.id = taskId) :
    markDoneAux taskId (l1 ++ t :: l2)
      = (l1 ++ { t with done := !t.done } :: l2, some (!t.done)) := by
  induction l1 with
  | nil => simp [markDoneAux, ht]
  | cons a l1 ih =>
    have ha : a.id ≠ taskId := h1 a (List.mem_cons_self a l1)
    simp [markDoneAux, ha, ih fun u hu => h1 u (List.mem_cons_of_mem a hu)]

/-- Flipping `done` twice restores the task. -/
theorem flip_flip (t : Task) :
    ({ ({ t with done := !t.done } : Task) with done := !(!t.done) } : Task) = t := by
  cases t
  simp

/-- C6 (amended): toggling a task twice restores the collection up to
permutation — in particular the task itself, its original `done` value
included, is back in the store — provided ids are unique; the position among
equal-key tasks, however, is not preserved (see the counterexample). -/
theorem markDone_twice_perm (ts : List Task) (taskId : Nat)
    (hnd : (ts.map Task.id).Nodup) :
    List.Perm (markDone taskId (markDone taskId ts).1).1 ts := by
  by_cases hex : ∃ t ∈ ts, t.id = taskId
  · obtain ⟨l1, t, l2, rfl, hl1, ht⟩ := exists_first_id hex
    have h1 := markDoneAux_append l1 t l2 hl1 ht
    set ft : Task := { t with done := !t.done } with hft
    have hm1 : (markDone taskId (l1 ++ t :: l2)).1 = sortTasks (l1 ++ ft :: l2) := by
      simp [markDone, h1]
    rw [hm1]
    have p1 : List.Perm (sortTasks (l1 ++ ft :: l2)) (l1 ++ ft :: l2) :=
      sortTasks_perm _
    have hi2 : taskId ∉ l2.map Task.id := by
      rw [List.map_append, List.map_cons] at hnd
      have h' := List.Nodup.of_append_right hnd
      rw [List.nodup_cons] at h'
      exact ht ▸ h'.1
    have hftid : ft.id = taskId := ht
    have hmem : ft ∈ sortTasks (l1 ++ ft :: l2) :=
      p1.mem_iff.mpr (List.mem_append.mpr (Or.inr (List.mem_cons_self ft l2)))
    obtain ⟨m1, u, m2, heq, hm1', hu⟩ := exists_first_id ⟨ft, hmem, hftid⟩
    have humem : u ∈ l1 ++ ft :: l2 :=
      p1.mem_iff.mp (heq ▸ List.mem_append.mpr (Or.inr (List.mem_cons_self u m2)))
    have huft : u = ft := by
      rcases List.mem_append.mp humem with h' | h'
      · exact absurd hu (hl1 u h')
      · rcases List.mem_cons.mp h' with h'' | h''
        · exact h''
        · exact absurd (hu ▸ List.mem_map_of_mem Task.id h'') hi2
    subst huft
    have h2 := markDoneAux_append m1 ft m2 hm1' hftid
    rw [show ({ ft with done := !ft.done } : Task) = t from flip_flip t] at h2
    have hm2 : (markDone taskId (sortTasks (l1 ++ ft :: l2))).1
        = sortTasks (m1 ++ t :: m2) := by
      rw [heq]
      simp [markDone, h2]
    rw [hm2]
    have p2 : List.Perm (sortTasks (m1 ++ t :: m2)) (m1 ++ t :: m2) :=
      sortTasks_perm _
    have p1' : List.Perm (m1 ++ ft :: m2) (l1 ++ ft :: l2) := heq ▸ p1
    have r1 : List.Perm (ft :: (m1 ++ m2)) (ft :: (l1 ++ l2)) :=
      List.perm_middle.symm.trans (p1'.trans List.perm_middle)
    have q : List.Perm (m1 ++ m2) (l1 ++ l2) := r1.cons_inv
    exact p2.trans (List.perm_middle.trans ((q.cons t).trans List.perm_middle.symm))
  · have hall : ∀ t ∈ ts, t.id ≠ taskId := by
      intro t htm heq
      exact hex ⟨t, htm, heq⟩
    have h1 : markDoneAux taskId ts = (ts, none) := markDoneAux_not_found hall
    simp [markDone, h1]

/-- Witness instantiating `markDone_twice_perm` on a concrete two-task store. -/
theorem markDone_twice_perm_witness :
    (([(⟨1, "A", "high", false, "t"⟩ : Task), ⟨2, "B", "low", true, "t"⟩].map Task.id).Nodup)
    ∧ List.Perm
        (markDone 1 (markDone 1
          [(⟨1, "A", "high", false, "t"⟩ : Task), ⟨2, "B", "low", true, "t"⟩]).1).1
        [(⟨1, "A", "high", false, "t"⟩ : Task), ⟨2, "B", "low", true, "t"⟩] :=
  ⟨by decide, markDone_twice_perm _ 1 (by decide)⟩

/-- C6 (counterexample): with two pending high-priority tasks A then B (equal
sort keys), toggling A twice yields [B, A]: A regained its `done` value but now
follows B, so its sort position relative to the equal-key task B is not the one
it held before the first call. -/
theorem toggle_twice_position_cex :
    (markDone 1 (markDone 1
        [(⟨1, "A", "high", false, "t"⟩ : Task), ⟨2, "B", "high", false, "t"⟩]).1).1
      = [⟨2, "B", "high", false, "t"⟩, ⟨1, "A", "high", false, "t"⟩]
    ∧ sortKey ⟨1, "A", "high", false, "t"⟩ = sortKey ⟨2, "B", "high", false, "t"⟩
    ∧ ([(⟨2, "B", "high", false, "t"⟩ : Task), ⟨1, "A", "high", false, "t"⟩]
        ≠ [⟨1, "A", "high", false, "t"⟩, ⟨2, "B", "high", false, "t"⟩]) := by
  refine ⟨rfl, rfl, by decide⟩

end TodoList
